import Mathlib

/-!
# Verification of the asynq producer-side submission client

Shallow embedding of the task-submission client (`Client.Enqueue`,
`composeOptions`, `Client.enqueue`, `Client.schedule` and the option
constructors) of the repository's `asynq` fragment, together with proofs of
the specification's testable properties.

Modelling conventions:
* `time.Time` is modelled as `Int`: nanoseconds since Go's zero time value
  (January 1, year 1 UTC), so the Go zero `time.Time{}` is `0` and
  `time.Unix(0, 0)` is the constant `unixEpoch`.
* `time.Duration` is modelled as `Int` nanoseconds.
* Byte slices (`[]byte`) are modelled as `List Nat`.
* `time.Now()` is threaded in as an explicit `now : Time` parameter; a single
  submission uses one `now` for composition, routing and TTL computation.
* The redis backing store is external: a submission is modelled as a pure
  function returning the result together with the list of store calls it
  issues, and the store's answer is a parameter `store : StoreCall → Option Err`
  (`none` = success).
* `int64(d.Seconds())` and `t.Unix()` convert nanoseconds to whole seconds;
  for the nonnegative values arising in this development Go's
  truncation-toward-zero agrees with `Int` division below.
-/

set_option autoImplicit false

namespace Asynq

/-- `time.Time`, as nanoseconds since Go's zero time value. -/
abbrev Time := Int

/-- `time.Duration`, in nanoseconds. -/
abbrev Duration := Int

/-- `time.Minute` in nanoseconds. -/
def Minute : Duration := 60 * 1000000000

/-- `time.Hour` in nanoseconds. -/
def Hour : Duration := 60 * Minute

/-- Seconds between Go's zero time value and the Unix epoch `time.Unix(0, 0)`
(719162 days of 86400 seconds), in nanoseconds. -/
def unixEpoch : Time := 62135596800 * 1000000000

/-- `t.IsZero()`: whether `t` is Go's zero time value. -/
def Time.isZero (t : Time) : Bool := t == 0

/-- `t.Unix()`: whole seconds between the Unix epoch and `t`. -/
def Time.unix (t : Time) : Int := (t - unixEpoch) / 1000000000

/-- `int64(d.Seconds())`: the duration in whole seconds. -/
def Duration.seconds (d : Duration) : Int := d / 1000000000

/-- The `OptionType` enumeration of option kinds. -/
inductive OptionType where
  | MaxRetryOpt
  | QueueOpt
  | TimeoutOpt
  | DeadlineOpt
  | UniqueOpt
  | ProcessAtOpt
  | ProcessInOpt
  | TaskIDOpt
  | RetentionOpt
  deriving DecidableEq, Repr

/-- The `Option` interface: a closed tagged variant over the internal option
representations (`retryOption`, `queueOption`, ...), each carrying its typed
value. -/
inductive TaskOption where
  | retryOption (n : Int)
  | queueOption (qname : String)
  | taskIDOption (id : String)
  | timeoutOption (d : Duration)
  | deadlineOption (t : Time)
  | uniqueOption (ttl : Duration)
  | processAtOption (t : Time)
  | processInOption (d : Duration)
  | retentionOption (d : Duration)
  deriving DecidableEq, Repr

/-- `Option.Type()`: the kind tag of an option value. -/
def TaskOption.typeOf : TaskOption → OptionType
  | .retryOption _ => .MaxRetryOpt
  | .queueOption _ => .QueueOpt
  | .taskIDOption _ => .TaskIDOpt
  | .timeoutOption _ => .TimeoutOpt
  | .deadlineOption _ => .DeadlineOpt
  | .uniqueOption _ => .UniqueOpt
  | .processAtOption _ => .ProcessAtOpt
  | .processInOption _ => .ProcessInOpt
  | .retentionOption _ => .RetentionOpt

/-- `MaxRetry(n)`: negative retry count is treated as zero retry. -/
def MaxRetry (n : Int) : TaskOption :=
  .retryOption (if n < 0 then 0 else n)

/-- `Queue(qname)`. -/
def Queue (qname : String) : TaskOption := .queueOption qname

/-- `TaskID(id)`. -/
def TaskID (id : String) : TaskOption := .taskIDOption id

/-- `Timeout(d)`. -/
def Timeout (d : Duration) : TaskOption := .timeoutOption d

/-- `Deadline(t)`. -/
def Deadline (t : Time) : TaskOption := .deadlineOption t

/-- `Unique(ttl)`. -/
def Unique (ttl : Duration) : TaskOption := .uniqueOption ttl

/-- `ProcessAt(t)`. -/
def ProcessAt (t : Time) : TaskOption := .processAtOption t

/-- `ProcessIn(d)`. -/
def ProcessIn (d : Duration) : TaskOption := .processInOption d

/-- `Retention(d)`. -/
def Retention (d : Duration) : TaskOption := .retentionOption d

/-- The single error universe of the Go code (`error` values).
`errDuplicateTaskInternal` and `errTaskIdConflictInternal` are the backing
store's sentinels `errors.ErrDuplicateTask` / `errors.ErrTaskIdConflict`;
`ErrDuplicateTask` and `ErrTaskIDConflict` are the distinct public sentinels
declared in the client; `validation` covers the client's own validation
errors; `other` is any other (transport) error. -/
inductive Err where
  | validation (msg : String)
  | errDuplicateTaskInternal
  | errTaskIdConflictInternal
  | ErrDuplicateTask
  | ErrTaskIDConflict
  | other (msg : String)
  deriving DecidableEq, Repr

/-- A `Task`: type name, opaque payload, and default options attached at
construction time (`NewTask`); the task type's code is a plain carrier not
included in the fragment, modelled after §3 of the specification. -/
structure Task where
  typename : String
  payload : List Nat
  opts : List TaskOption
  deriving DecidableEq, Repr

/-- Models the test `strings.TrimSpace(s) == ""`: a string trims to empty
exactly when every character is whitespace. (Go's `unicode.IsSpace` accepts a
few more Unicode space characters than `Char.isWhitespace`; the claims only
concern whitespace in the common sense.) -/
def isBlank (s : String) : Bool := s.data.all Char.isWhitespace

/-- Modelled from the spec: `base.DefaultQueueName` (the `base` package is not
part of the fragment); §8's zero-option example resolves queue to
`"default"`. -/
def DefaultQueueName : String := "default"

/-- Modelled from the spec: `base.ValidateQueueName` (the `base` package is not
part of the fragment); a malformed queue name — here one that is blank after
trimming whitespace — yields a validation error, `none` means valid. -/
def ValidateQueueName (qname : String) : Option Err :=
  if isBlank qname then some (.validation "queue name must not be empty") else none

/-- `validateTaskID`: a user-provided task ID must be non-blank after trimming
whitespace; `none` means valid. -/
def validateTaskID (id : String) : Option Err :=
  if isBlank id then some (.validation "task ID cannot be empty") else none

/-- Modelled from the spec: `base.UniqueKey` (the `base` package is not part of
the fragment); the uniqueness key is a deterministic fingerprint of the triple
(queue name, task type, payload), modelled as the triple itself. -/
structure UniqueKeyV where
  queue : String
  tasktype : String
  payload : List Nat
  deriving DecidableEq, Repr

/-- Modelled from the spec: the Uniqueness Key Deriver `base.UniqueKey`. -/
def UniqueKey (qname tasktype : String) (payload : List Nat) : UniqueKeyV :=
  ⟨qname, tasktype, payload⟩

/-- Default max retry count used if nothing is specified. -/
def defaultMaxRetry : Int := 25

/-- Default timeout used if both timeout and deadline are not specified. -/
def defaultTimeout : Duration := 30 * Minute

/-- Value zero indicates no timeout. -/
def noTimeout : Duration := 0

/-- `time.Unix(0, 0)` indicates no deadline. -/
def noDeadline : Time := unixEpoch

/-- The composed `option` struct: one concrete value per option kind. -/
structure option where
  retry : Int
  queue : String
  taskID : String
  timeout : Duration
  deadline : Time
  uniqueTTL : Duration
  processAt : Time
  retention : Duration
  deriving DecidableEq, Repr

/-- The Go zero value `option{}`, returned alongside a validation error. -/
def option.zero : option :=
  { retry := 0, queue := "", taskID := "", timeout := 0, deadline := 0,
    uniqueTTL := 0, processAt := 0, retention := 0 }

/-- The loop body of `composeOptions`: each option in order overwrites its
field of the accumulated result; queue and task-ID options are validated and
the first failure aborts with the zero `option` struct. `now` stands for the
`time.Now()` calls made during composition (default `processAt` and
`ProcessIn` resolution). -/
def composeOptionsLoop (now : Time) : List TaskOption → option → option × Option Err
  | [], res => (res, none)
  | opt :: rest, res =>
    match opt with
    | .retryOption n => composeOptionsLoop now rest { res with retry := n }
    | .queueOption qname =>
      match ValidateQueueName qname with
      | some err => (option.zero, some err)
      | none => composeOptionsLoop now rest { res with queue := qname }
    | .taskIDOption id =>
      match validateTaskID id with
      | some err => (option.zero, some err)
      | none => composeOptionsLoop now rest { res with taskID := id }
    | .timeoutOption d => composeOptionsLoop now rest { res with timeout := d }
    | .deadlineOption t => composeOptionsLoop now rest { res with deadline := t }
    | .uniqueOption ttl => composeOptionsLoop now rest { res with uniqueTTL := ttl }
    | .processAtOption t => composeOptionsLoop now rest { res with processAt := t }
    | .processInOption d => composeOptionsLoop now rest { res with processAt := now + d }
    | .retentionOption d => composeOptionsLoop now rest { res with retention := d }

/-- `composeOptions`: merges the provided options into the default options and
validates them, returning the composed option (and `none`), or the zero
`option` struct and the first validation error. `genId` stands for the
freshly generated `uuid.NewString()` default task ID. -/
def composeOptions (now : Time) (genId : String) (opts : List TaskOption) :
    option × Option Err :=
  composeOptionsLoop now opts
    { retry := defaultMaxRetry
      queue := DefaultQueueName
      taskID := genId
      timeout := 0
      deadline := 0
      uniqueTTL := 0
      processAt := now
      retention := 0 }

/-- `base.TaskMessage`, as built by `Client.Enqueue`: the durable submission
record handed to the backing store. `Deadline`, `Timeout` and `Retention` are
stored in whole seconds as in the source (`deadline.Unix()`,
`int64(timeout.Seconds())`, `int64(opt.retention.Seconds())`); the uniqueness
key is `none` when the source leaves the field as the empty string. -/
structure TaskMessage where
  ID : String
  taskType : String
  payload : List Nat
  queue : String
  retry : Int
  deadline : Int
  timeout : Int
  uniqueKey : Option UniqueKeyV
  retention : Int
  deriving DecidableEq, Repr

/-- One call to the backing store (`rdb.Enqueue`, `rdb.EnqueueUnique`,
`rdb.Schedule`, `rdb.ScheduleUnique`), with the arguments the client passes. -/
inductive StoreCall where
  | enqueue (msg : TaskMessage)
  | enqueueUnique (msg : TaskMessage) (ttl : Duration)
  | schedule (msg : TaskMessage) (t : Time)
  | scheduleUnique (msg : TaskMessage) (t : Time) (ttl : Duration)
  deriving DecidableEq, Repr

/-- The message carried by a store call. -/
def StoreCall.msg : StoreCall → TaskMessage
  | .enqueue m => m
  | .enqueueUnique m _ => m
  | .schedule m _ => m
  | .scheduleUnique m _ _ => m

/-- Whether the call is on the immediate path (plain or unique enqueue). -/
def StoreCall.isImmediate : StoreCall → Bool
  | .enqueue _ => true
  | .enqueueUnique _ _ => true
  | .schedule _ _ => false
  | .scheduleUnique _ _ _ => false

/-- The lifecycle states of `base.TaskState`; the client only produces
`pending` (immediate path) and `scheduled` (deferred path). -/
inductive TaskState where
  | pending
  | scheduled
  deriving DecidableEq, Repr

/-- `TaskInfo` as produced by `newTaskInfo(msg, state, processAt, nil)`; the
`TaskInfo` type's code is a plain carrier not included in the fragment,
modelled after §3's SubmissionResult: record snapshot, lifecycle state and
resolved effective time. -/
structure TaskInfo where
  msg : TaskMessage
  state : TaskState
  nextProcessAt : Time
  deriving DecidableEq, Repr

/-- A backing store's behaviour: its answer to each call
(`none` = accepted). -/
abbrev Store := StoreCall → Option Err

/-- The outcome of `Client.Enqueue`, mirroring Go's `(*TaskInfo, error)`
return pair, together with the trace of backing-store calls issued during the
submission. -/
structure EnqueueResult where
  info : Option TaskInfo
  err : Option Err
  calls : List StoreCall
  deriving DecidableEq, Repr

/-- `Client.enqueue`: the immediate path, choosing `rdb.EnqueueUnique` with
the TTL guard equal to the uniqueness TTL when `uniqueTTL > 0`, else plain
`rdb.Enqueue`. Returns the call made. -/
def Client.enqueueCall (msg : TaskMessage) (uniqueTTL : Duration) : StoreCall :=
  if uniqueTTL > 0 then .enqueueUnique msg uniqueTTL else .enqueue msg

/-- `Client.schedule`: the deferred path, choosing `rdb.ScheduleUnique` with
TTL guard `t.Add(uniqueTTL).Sub(time.Now())` when `uniqueTTL > 0`, else plain
`rdb.Schedule`. Returns the call made. -/
def Client.scheduleCall (now : Time) (msg : TaskMessage) (t : Time)
    (uniqueTTL : Duration) : StoreCall :=
  if uniqueTTL > 0 then .scheduleUnique msg t (t + uniqueTTL - now)
  else .schedule msg t

/-- Lines 310–336 of the client (the Submission Record Builder): deadline and
timeout reconciliation against the sentinels, falling back to the default
timeout when neither is set; the uniqueness key derived only when
`uniqueTTL > 0`; the `TaskMessage` constructed from the composed options and
the task. -/
def buildMessage (task : Task) (opt : option) : TaskMessage :=
  let deadline := if opt.deadline.isZero then noDeadline else opt.deadline
  let timeout := if opt.timeout != 0 then opt.timeout else noTimeout
  let timeout :=
    if deadline == noDeadline && timeout == noTimeout then defaultTimeout
    else timeout
  let uniqueKey :=
    if opt.uniqueTTL > 0 then
      some (UniqueKey opt.queue task.typename task.payload)
    else none
  { ID := opt.taskID
    taskType := task.typename
    payload := task.payload
    queue := opt.queue
    retry := opt.retry
    deadline := deadline.unix
    timeout := timeout.seconds
    uniqueKey := uniqueKey
    retention := opt.retention.seconds }

/-- Lines 337–346 of the client (the Submission Router):
`opt.processAt.Before(now) || opt.processAt.Equal(now)` selects the immediate
path with the processing time clamped to `now` and state `pending`; otherwise
the deferred path with state `scheduled`. Returns the effective processing
time, the store call made, and the resulting state. -/
def route (now : Time) (msg : TaskMessage) (opt : option) :
    Time × StoreCall × TaskState :=
  if opt.processAt < now || opt.processAt == now then
    (now, Client.enqueueCall msg opt.uniqueTTL, TaskState.pending)
  else
    (opt.processAt, Client.scheduleCall now msg opt.processAt opt.uniqueTTL,
      TaskState.scheduled)

/-- Lines 347–354 of the client (the Error Mapper): the store's
`errors.ErrDuplicateTask` and `errors.ErrTaskIdConflict` sentinels become the
public `ErrDuplicateTask` / `ErrTaskIDConflict`; any other error is returned
unchanged. -/
def mapError (e : Err) : Err :=
  if e = .errDuplicateTaskInternal then .ErrDuplicateTask
  else if e = .errTaskIdConflictInternal then .ErrTaskIDConflict
  else e

/-- Lines 326–356 of the client, after successful composition: build the
record, route it, issue the single store call, map conflict sentinels, and
assemble the `TaskInfo` from the message, state and effective processing
time. -/
def submitResult (store : Store) (now : Time) (task : Task) (opt : option) :
    EnqueueResult :=
  let msg := buildMessage task opt
  let pcs := route now msg opt
  match store pcs.2.1 with
  | some e => ⟨none, some (mapError e), [pcs.2.1]⟩
  | none => ⟨some ⟨msg, pcs.2.2, pcs.1⟩, none, [pcs.2.1]⟩

/-- `Client.Enqueue`: validates the task type name, merges the task's default
options with the call-time options, builds the submission record, routes to
the immediate or deferred path, issues the store call, maps the store's
conflict sentinels to the public errors, and returns the `TaskInfo` on
success. Alongside the result it returns the list of store calls issued. -/
def Client.Enqueue (store : Store) (now : Time) (genId : String) (task : Task)
    (opts : List TaskOption) : EnqueueResult :=
  if isBlank task.typename then
    ⟨none, some (.validation "task typename cannot be empty"), []⟩
  else
    match composeOptions now genId (task.opts ++ opts) with
    | (_, some err) => ⟨none, some err, []⟩
    | (opt, none) => submitResult store now task opt

/-! ## Per-kind option projections

Used to state how composition resolves each option kind: the value an option
contributes to a given field of the composed `option` struct, or `none` when
the option is of a different kind. -/

/-- The retry count carried by a retry option. -/
def retryVal : TaskOption → Option Int
  | .retryOption n => some n
  | _ => none

/-- The queue name carried by a queue option. -/
def queueVal : TaskOption → Option String
  | .queueOption q => some q
  | _ => none

/-- The task ID carried by a task-ID option. -/
def taskIDVal : TaskOption → Option String
  | .taskIDOption i => some i
  | _ => none

/-- The duration carried by a timeout option. -/
def timeoutVal : TaskOption → Option Duration
  | .timeoutOption d => some d
  | _ => none

/-- The time carried by a deadline option. -/
def deadlineVal : TaskOption → Option Time
  | .deadlineOption t => some t
  | _ => none

/-- The TTL carried by a uniqueness option. -/
def uniqueVal : TaskOption → Option Duration
  | .uniqueOption ttl => some ttl
  | _ => none

/-- The scheduled time an option contributes: `ProcessAt(t)` contributes `t`,
`ProcessIn(d)` contributes `now + d`. -/
def schedVal (now : Time) : TaskOption → Option Time
  | .processAtOption t => some t
  | .processInOption d => some (now + d)
  | _ => none

/-- The duration carried by a retention option. -/
def retentionVal : TaskOption → Option Duration
  | .retentionOption d => some d
  | _ => none

/-- The value of the last option of a given kind in the sequence, or the
default `d` when no option of that kind occurs: each option in order
overwrites the running value by its contribution, if any. -/
def resolveLast {α : Type} (f : TaskOption → Option α) (d : α)
    (opts : List TaskOption) : α :=
  opts.foldl (fun acc o => (f o).getD acc) d

/-- The first validation failure a list of options contains: the first queue
option with a malformed name or task-ID option blank after trimming, scanned
in order. -/
def firstFailure : List TaskOption → Option Err
  | [] => none
  | .queueOption q :: rest =>
    match ValidateQueueName q with
    | some e => some e
    | none => firstFailure rest
  | .taskIDOption i :: rest =>
    match validateTaskID i with
    | some e => some e
    | none => firstFailure rest
  | _ :: rest => firstFailure rest

end Asynq

namespace Asynq

theorem resolveLast_nil {α : Type} (f : TaskOption → Option α) (d : α) :
    resolveLast f d [] = d := rfl

theorem resolveLast_cons {α : Type} (f : TaskOption → Option α) (d : α)
    (o : TaskOption) (rest : List TaskOption) :
    resolveLast f d (o :: rest) = resolveLast f ((f o).getD d) rest := rfl

theorem resolveLast_eq_default {α : Type} (f : TaskOption → Option α) (d : α)
    (opts : List TaskOption) (h : ∀ o ∈ opts, f o = none) :
    resolveLast f d opts = d := by
  induction opts generalizing d with
  | nil => rfl
  | cons o rest ih =>
    rw [resolveLast_cons, h o (List.mem_cons_self o rest)]
    exact ih d fun x hx => h x (List.mem_cons_of_mem o hx)

theorem composeOptionsLoop_ok (now : Time) (opts : List TaskOption) :
    ∀ (acc res : option), composeOptionsLoop now opts acc = (res, none) →
    res = { retry := resolveLast retryVal acc.retry opts
            queue := resolveLast queueVal acc.queue opts
            taskID := resolveLast taskIDVal acc.taskID opts
            timeout := resolveLast timeoutVal acc.timeout opts
            deadline := resolveLast deadlineVal acc.deadline opts
            uniqueTTL := resolveLast uniqueVal acc.uniqueTTL opts
            processAt := resolveLast (schedVal now) acc.processAt opts
            retention := resolveLast retentionVal acc.retention opts } := by
  induction opts with
  | nil =>
    intro acc res h
    simp only [composeOptionsLoop, Prod.mk.injEq] at h
    obtain ⟨rfl, -⟩ := h
    rfl
  | cons o rest ih =>
    intro acc res h
    cases o with
    | retryOption n =>
      simp only [composeOptionsLoop] at h
      rw [ih _ _ h]
      simp [resolveLast_cons, retryVal, queueVal, taskIDVal, timeoutVal,
        deadlineVal, uniqueVal, schedVal, retentionVal]
    | queueOption q =>
      simp only [composeOptionsLoop] at h
      cases hv : ValidateQueueName q with
      | some e =>
        simp only [hv] at h
        exact absurd (congrArg Prod.snd h) (by simp)
      | none =>
        simp only [hv] at h
        rw [ih _ _ h]
        simp [resolveLast_cons, retryVal, queueVal, taskIDVal, timeoutVal,
          deadlineVal, uniqueVal, schedVal, retentionVal]
    | taskIDOption i =>
      simp only [composeOptionsLoop] at h
      cases hv : validateTaskID i with
      | some e =>
        simp only [hv] at h
        exact absurd (congrArg Prod.snd h) (by simp)
      | none =>
        simp only [hv] at h
        rw [ih _ _ h]
        simp [resolveLast_cons, retryVal, queueVal, taskIDVal, timeoutVal,
          deadlineVal, uniqueVal, schedVal, retentionVal]
    | timeoutOption d =>
      simp only [composeOptionsLoop] at h
      rw [ih _ _ h]
      simp [resolveLast_cons, retryVal, queueVal, taskIDVal, timeoutVal,
        deadlineVal, uniqueVal, schedVal, retentionVal]
    | deadlineOption t =>
      simp only [composeOptionsLoop] at h
      rw [ih _ _ h]
      simp [resolveLast_cons, retryVal, queueVal, taskIDVal, timeoutVal,
        deadlineVal, uniqueVal, schedVal, retentionVal]
    | uniqueOption ttl =>
      simp only [composeOptionsLoop] at h
      rw [ih _ _ h]
      simp [resolveLast_cons, retryVal, queueVal, taskIDVal, timeoutVal,
        deadlineVal, uniqueVal, schedVal, retentionVal]
    | processAtOption t =>
      simp only [composeOptionsLoop] at h
      rw [ih _ _ h]
      simp [resolveLast_cons, retryVal, queueVal, taskIDVal, timeoutVal,
        deadlineVal, uniqueVal, schedVal, retentionVal]
    | processInOption d =>
      simp only [composeOptionsLoop] at h
      rw [ih _ _ h]
      simp [resolveLast_cons, retryVal, queueVal, taskIDVal, timeoutVal,
        deadlineVal, uniqueVal, schedVal, retentionVal]
    | retentionOption d =>
      simp only [composeOptionsLoop] at h
      rw [ih _ _ h]
      simp [resolveLast_cons, retryVal, queueVal, taskIDVal, timeoutVal,
        deadlineVal, uniqueVal, schedVal, retentionVal]

end Asynq

namespace Asynq

theorem composeOptions_ok (now : Time) (genId : String) (opts : List TaskOption)
    (res : option) (h : composeOptions now genId opts = (res, none)) :
    res = { retry := resolveLast retryVal defaultMaxRetry opts
            queue := resolveLast queueVal DefaultQueueName opts
            taskID := resolveLast taskIDVal genId opts
            timeout := resolveLast timeoutVal 0 opts
            deadline := resolveLast deadlineVal 0 opts
            uniqueTTL := resolveLast uniqueVal 0 opts
            processAt := resolveLast (schedVal now) now opts
            retention := resolveLast retentionVal 0 opts } :=
  composeOptionsLoop_ok now opts _ res h

theorem composeOptionsLoop_append (now : Time) (l₁ l₂ : List TaskOption) :
    ∀ acc : option, composeOptionsLoop now (l₁ ++ l₂) acc =
      match composeOptionsLoop now l₁ acc with
      | (r, none) => composeOptionsLoop now l₂ r
      | (z, some e) => (z, some e) := by
  induction l₁ with
  | nil => intro acc; simp [composeOptionsLoop]
  | cons o rest ih =>
    intro acc
    cases o with
    | queueOption q =>
      simp only [List.cons_append, composeOptionsLoop]
      cases hv : ValidateQueueName q with
      | some e => simp
      | none => simp [ih]
    | taskIDOption i =>
      simp only [List.cons_append, composeOptionsLoop]
      cases hv : validateTaskID i with
      | some e => simp
      | none => simp [ih]
    | retryOption n => simp only [List.cons_append, composeOptionsLoop]; exact ih _
    | timeoutOption d => simp only [List.cons_append, composeOptionsLoop]; exact ih _
    | deadlineOption t => simp only [List.cons_append, composeOptionsLoop]; exact ih _
    | uniqueOption ttl => simp only [List.cons_append, composeOptionsLoop]; exact ih _
    | processAtOption t => simp only [List.cons_append, composeOptionsLoop]; exact ih _
    | processInOption d => simp only [List.cons_append, composeOptionsLoop]; exact ih _
    | retentionOption d => simp only [List.cons_append, composeOptionsLoop]; exact ih _

theorem composeOptionsLoop_firstFailure (now : Time) (opts : List TaskOption)
    (e : Err) (h : firstFailure opts = some e) :
    ∀ acc : option, composeOptionsLoop now opts acc = (option.zero, some e) := by
  induction opts with
  | nil => simp [firstFailure] at h
  | cons o rest ih =>
    intro acc
    cases o with
    | queueOption q =>
      simp only [firstFailure] at h
      simp only [composeOptionsLoop]
      cases hv : ValidateQueueName q with
      | some e2 => simp only [hv] at h ⊢; simp_all
      | none => simp only [hv] at h ⊢; exact ih h _
    | taskIDOption i =>
      simp only [firstFailure] at h
      simp only [composeOptionsLoop]
      cases hv : validateTaskID i with
      | some e2 => simp only [hv] at h ⊢; simp_all
      | none => simp only [hv] at h ⊢; exact ih h _
    | retryOption n => simp only [firstFailure] at h; simp only [composeOptionsLoop]; exact ih h _
    | timeoutOption d => simp only [firstFailure] at h; simp only [composeOptionsLoop]; exact ih h _
    | deadlineOption t => simp only [firstFailure] at h; simp only [composeOptionsLoop]; exact ih h _
    | uniqueOption ttl => simp only [firstFailure] at h; simp only [composeOptionsLoop]; exact ih h _
    | processAtOption t => simp only [firstFailure] at h; simp only [composeOptionsLoop]; exact ih h _
    | processInOption d => simp only [firstFailure] at h; simp only [composeOptionsLoop]; exact ih h _
    | retentionOption d => simp only [firstFailure] at h; simp only [composeOptionsLoop]; exact ih h _

end Asynq

namespace Asynq

theorem enqueueCall_msg (m : TaskMessage) (ttl : Duration) :
    (Client.enqueueCall m ttl).msg = m := by
  unfold Client.enqueueCall
  split <;> rfl

theorem scheduleCall_msg (now : Time) (m : TaskMessage) (t : Time) (ttl : Duration) :
    (Client.scheduleCall now m t ttl).msg = m := by
  unfold Client.scheduleCall
  split <;> rfl

theorem enqueueCall_isImmediate (m : TaskMessage) (ttl : Duration) :
    (Client.enqueueCall m ttl).isImmediate = true := by
  unfold Client.enqueueCall
  split <;> rfl

theorem scheduleCall_isImmediate (now : Time) (m : TaskMessage) (t : Time)
    (ttl : Duration) :
    (Client.scheduleCall now m t ttl).isImmediate = false := by
  unfold Client.scheduleCall
  split <;> rfl

theorem route_immediate (now : Time) (msg : TaskMessage) (opt : option)
    (h : opt.processAt ≤ now) :
    route now msg opt = (now, Client.enqueueCall msg opt.uniqueTTL, .pending) := by
  unfold route
  have hc : (opt.processAt < now || opt.processAt == now) = true := by
    simp only [Bool.or_eq_true, decide_eq_true_eq, beq_iff_eq]
    exact lt_or_eq_of_le h
  rw [hc]
  simp

theorem route_deferred (now : Time) (msg : TaskMessage) (opt : option)
    (h : now < opt.processAt) :
    route now msg opt =
      (opt.processAt, Client.scheduleCall now msg opt.processAt opt.uniqueTTL,
        .scheduled) := by
  unfold route
  have hc : (opt.processAt < now || opt.processAt == now) = false := by
    simp only [Bool.or_eq_false_iff, decide_eq_false_iff_not, beq_eq_false_iff_ne, ne_eq]
    exact ⟨not_lt.mpr h.le, ne_of_gt h⟩
  rw [hc]
  simp

theorem route_msg (now : Time) (msg : TaskMessage) (opt : option) :
    (route now msg opt).2.1.msg = msg := by
  unfold route
  split
  case isTrue => exact enqueueCall_msg msg opt.uniqueTTL
  case isFalse => exact scheduleCall_msg now msg opt.processAt opt.uniqueTTL

theorem submitResult_calls (store : Store) (now : Time) (task : Task) (opt : option) :
    (submitResult store now task opt).calls =
      [(route now (buildMessage task opt) opt).2.1] := by
  simp only [submitResult]
  cases hs : store (route now (buildMessage task opt) opt).2.1 <;> simp [hs]

theorem submitResult_err (store : Store) (now : Time) (task : Task) (opt : option) :
    (submitResult store now task opt).err =
      ((store (route now (buildMessage task opt) opt).2.1).map mapError) := by
  simp only [submitResult]
  cases hs : store (route now (buildMessage task opt) opt).2.1 <;> simp [hs]

theorem submitResult_info (store : Store) (now : Time) (task : Task) (opt : option) :
    (submitResult store now task opt).info =
      match store (route now (buildMessage task opt) opt).2.1 with
      | some _ => none
      | none => some ⟨buildMessage task opt, (route now (buildMessage task opt) opt).2.2,
          (route now (buildMessage task opt) opt).1⟩ := by
  simp only [submitResult]
  cases hs : store (route now (buildMessage task opt) opt).2.1 <;> simp [hs]

theorem enqueue_ok_eq (store : Store) (now : Time) (genId : String) (task : Task)
    (opts : List TaskOption) (opt : option)
    (h1 : isBlank task.typename = false)
    (h2 : composeOptions now genId (task.opts ++ opts) = (opt, none)) :
    Client.Enqueue store now genId task opts = submitResult store now task opt := by
  unfold Client.Enqueue
  rw [h1, h2]
  simp

theorem enqueue_fail_eq (store : Store) (now : Time) (genId : String) (task : Task)
    (opts : List TaskOption) (z : option) (e : Err)
    (h1 : isBlank task.typename = false)
    (h2 : composeOptions now genId (task.opts ++ opts) = (z, some e)) :
    Client.Enqueue store now genId task opts = ⟨none, some e, []⟩ := by
  unfold Client.Enqueue
  rw [h1, h2]
  simp

end Asynq

namespace Asynq

theorem buildMessage_fields (task : Task) (opt : option) :
    (buildMessage task opt).ID = opt.taskID ∧
    (buildMessage task opt).taskType = task.typename ∧
    (buildMessage task opt).payload = task.payload ∧
    (buildMessage task opt).queue = opt.queue ∧
    (buildMessage task opt).retry = opt.retry ∧
    (buildMessage task opt).retention = opt.retention.seconds := by
  unfold buildMessage
  refine ⟨rfl, rfl, rfl, rfl, rfl, rfl⟩

theorem buildMessage_uniqueKey (task : Task) (opt : option) :
    (buildMessage task opt).uniqueKey =
      if opt.uniqueTTL > 0 then some (UniqueKey opt.queue task.typename task.payload)
      else none := rfl

theorem buildMessage_defaults (task : Task) (opt : option)
    (ht : opt.timeout = 0) (hd : opt.deadline = 0) :
    (buildMessage task opt).timeout = 1800 ∧ (buildMessage task opt).deadline = 0 := by
  unfold buildMessage
  rw [ht, hd]
  norm_num [Time.isZero, noDeadline, noTimeout, defaultTimeout, Minute,
    Duration.seconds, Time.unix]

theorem buildMessage_both_set (task : Task) (opt : option)
    (ht : opt.timeout ≠ 0) (hd : opt.deadline ≠ 0) :
    (buildMessage task opt).timeout = opt.timeout.seconds ∧
    (buildMessage task opt).deadline = opt.deadline.unix := by
  unfold buildMessage
  have h1 : opt.deadline.isZero = false := by
    simp [Time.isZero, hd]
  have h2 : (opt.timeout != 0) = true := by
    simp [bne_iff_ne, ht]
  have h3 : (opt.timeout == noTimeout) = false := by
    simp [noTimeout, ht]
  rw [h1, h2]
  simp [h3]

end Asynq

namespace Asynq

theorem timeoutVal_eq_none (o : TaskOption) (h : o.typeOf ≠ .TimeoutOpt) :
    timeoutVal o = none := by
  cases o <;> simp_all [timeoutVal, TaskOption.typeOf]

theorem deadlineVal_eq_none (o : TaskOption) (h : o.typeOf ≠ .DeadlineOpt) :
    deadlineVal o = none := by
  cases o <;> simp_all [deadlineVal, TaskOption.typeOf]

theorem enqueue_calls_shape (store : Store) (now : Time) (genId : String)
    (task : Task) (opts : List TaskOption) (c : StoreCall)
    (hc : c ∈ (Client.Enqueue store now genId task opts).calls) :
    ∃ opt : option, isBlank task.typename = false ∧
      composeOptions now genId (task.opts ++ opts) = (opt, none) ∧
      c = (route now (buildMessage task opt) opt).2.1 := by
  cases hb : isBlank task.typename with
  | true =>
    unfold Client.Enqueue at hc
    rw [hb] at hc
    simp at hc
  | false =>
    cases hcomp : composeOptions now genId (task.opts ++ opts) with
    | mk opt oerr =>
      cases oerr with
      | some e =>
        rw [enqueue_fail_eq store now genId task opts opt e hb hcomp] at hc
        simp at hc
      | none =>
        rw [enqueue_ok_eq store now genId task opts opt hb hcomp,
          submitResult_calls] at hc
        simp at hc
        exact ⟨opt, rfl, rfl, hc⟩

end Asynq

namespace Asynq

/-- C1: for every task whose type name is empty or whitespace-only, `Enqueue`
returns the validation error and performs no backing-store interaction (the
trace of store calls is empty). -/
theorem enqueue_blank_typename_rejected (store : Store) (now : Time)
    (genId : String) (task : Task) (opts : List TaskOption)
    (h : isBlank task.typename = true) :
    Client.Enqueue store now genId task opts =
      ⟨none, some (.validation "task typename cannot be empty"), []⟩ := by
  unfold Client.Enqueue
  rw [h]
  simp

theorem enqueue_blank_typename_rejected_witness :
    Client.Enqueue (fun _ => none) 0 "id" ⟨" \t", [], []⟩ [] =
      ⟨none, some (.validation "task typename cannot be empty"), []⟩ :=
  enqueue_blank_typename_rejected (fun _ => none) 0 "id" ⟨" \t", [], []⟩ [] (by decide)

/-- C2: when no timeout option and no deadline option appear, neither among
the task's attached defaults nor at call time, every record sent to the store
carries the default timeout of 30 minutes (1800 s) and the no-deadline
sentinel (Unix second 0). -/
theorem enqueue_default_timeout_no_deadline (store : Store) (now : Time)
    (genId : String) (task : Task) (opts : List TaskOption)
    (h : ∀ o ∈ task.opts ++ opts, o.typeOf ≠ .TimeoutOpt ∧ o.typeOf ≠ .DeadlineOpt) :
    ∀ c ∈ (Client.Enqueue store now genId task opts).calls,
      c.msg.timeout = Duration.seconds defaultTimeout ∧
      Duration.seconds defaultTimeout = 1800 ∧
      c.msg.deadline = Time.unix noDeadline ∧
      Time.unix noDeadline = 0 := by
  intro c hc
  obtain ⟨opt, hb, hcomp, rfl⟩ :=
    enqueue_calls_shape store now genId task opts c hc
  have hopt := composeOptions_ok now genId (task.opts ++ opts) opt hcomp
  have hto : opt.timeout = 0 := by
    rw [hopt]
    exact resolveLast_eq_default _ _ _ fun o ho => timeoutVal_eq_none o (h o ho).1
  have hdl : opt.deadline = 0 := by
    rw [hopt]
    exact resolveLast_eq_default _ _ _ fun o ho => deadlineVal_eq_none o (h o ho).2
  have hmsg := buildMessage_defaults task opt hto hdl
  rw [route_msg]
  refine ⟨?_, by decide, ?_, by decide⟩
  · rw [hmsg.1]; decide
  · rw [hmsg.2]; decide

theorem enqueue_default_timeout_no_deadline_witness :
    ((StoreCall.enqueue ⟨"id", "a", [], "default", 25, 0, 1800, none, 0⟩).msg.timeout
        = Duration.seconds defaultTimeout ∧
      Duration.seconds defaultTimeout = 1800 ∧
      (StoreCall.enqueue ⟨"id", "a", [], "default", 25, 0, 1800, none, 0⟩).msg.deadline
        = Time.unix noDeadline ∧
      Time.unix noDeadline = 0) :=
  enqueue_default_timeout_no_deadline (fun _ => none) 0 "id" ⟨"a", [], []⟩ []
    (by decide) (StoreCall.enqueue ⟨"id", "a", [], "default", 25, 0, 1800, none, 0⟩)
    (by decide)

end Asynq

namespace Asynq

/-- C3: when both a timeout option and a deadline option are set to
non-sentinel values (the last timeout option carries a nonzero duration, the
last deadline option a nonzero time), every record sent to the store carries
both through unchanged, in whole seconds, neither replaced by the other. -/
theorem enqueue_preserves_timeout_and_deadline (store : Store) (now : Time)
    (genId : String) (task : Task) (opts : List TaskOption) (d : Duration) (t : Time)
    (htl : resolveLast timeoutVal 0 (task.opts ++ opts) = d) (hd0 : d ≠ 0)
    (htd : resolveLast deadlineVal 0 (task.opts ++ opts) = t) (ht0 : t ≠ 0) :
    ∀ c ∈ (Client.Enqueue store now genId task opts).calls,
      c.msg.timeout = Duration.seconds d ∧ c.msg.deadline = Time.unix t := by
  intro c hc
  obtain ⟨opt, hb, hcomp, rfl⟩ := enqueue_calls_shape store now genId task opts c hc
  have hopt := composeOptions_ok now genId (task.opts ++ opts) opt hcomp
  have hto : opt.timeout = d := by rw [hopt]; exact htl
  have hdl : opt.deadline = t := by rw [hopt]; exact htd
  have hmsg := buildMessage_both_set task opt (hto ▸ hd0) (hdl ▸ ht0)
  rw [route_msg]
  exact ⟨hmsg.1.trans (by rw [hto]), hmsg.2.trans (by rw [hdl])⟩

theorem enqueue_preserves_timeout_and_deadline_witness :
    (StoreCall.enqueue ⟨"id", "a", [], "default", 25, 1, 60, none, 0⟩).msg.timeout
        = Duration.seconds Minute ∧
    (StoreCall.enqueue ⟨"id", "a", [], "default", 25, 1, 60, none, 0⟩).msg.deadline
        = Time.unix (unixEpoch + 1000000000) :=
  enqueue_preserves_timeout_and_deadline (fun _ => none) 0 "id" ⟨"a", [], []⟩
    [.timeoutOption Minute, .deadlineOption (unixEpoch + 1000000000)]
    Minute (unixEpoch + 1000000000) (by decide) (by decide) (by decide) (by decide)
    (StoreCall.enqueue ⟨"id", "a", [], "default", 25, 1, 60, none, 0⟩) (by decide)

end Asynq

namespace Asynq

/-- C5: with `now` the submission time, a resolved scheduled time at or before
`now` is clamped to `now`, takes the immediate path (every store call is an
enqueue variant) and yields state `pending`; a resolved scheduled time
strictly after `now` takes the deferred path and yields state `scheduled`
with the scheduled time as effective time. -/
theorem enqueue_routing_by_time (store : Store) (now : Time) (genId : String)
    (task : Task) (opts : List TaskOption) (opt : option) (info : TaskInfo)
    (hcomp : composeOptions now genId (task.opts ++ opts) = (opt, none))
    (hinfo : (Client.Enqueue store now genId task opts).info = some info) :
    (opt.processAt ≤ now →
        info.state = .pending ∧ info.nextProcessAt = now ∧
        ∀ c ∈ (Client.Enqueue store now genId task opts).calls,
          c.isImmediate = true) ∧
    (now < opt.processAt →
        info.state = .scheduled ∧ info.nextProcessAt = opt.processAt ∧
        ∀ c ∈ (Client.Enqueue store now genId task opts).calls,
          c.isImmediate = false) := by
  cases hb : isBlank task.typename with
  | true =>
    unfold Client.Enqueue at hinfo
    rw [hb] at hinfo
    simp at hinfo
  | false =>
    rw [enqueue_ok_eq store now genId task opts opt hb hcomp] at hinfo ⊢
    rw [submitResult_info] at hinfo
    rw [submitResult_calls]
    cases hs : store (route now (buildMessage task opt) opt).2.1 with
    | some e => rw [hs] at hinfo; simp at hinfo
    | none =>
      rw [hs] at hinfo
      simp only [Option.some.injEq] at hinfo
      constructor
      · intro hle
        rw [route_immediate now (buildMessage task opt) opt hle] at hinfo ⊢
        rw [← hinfo]
        refine ⟨rfl, rfl, ?_⟩
        intro c hcm
        simp only [List.mem_singleton] at hcm
        rw [hcm]
        exact enqueueCall_isImmediate (buildMessage task opt) opt.uniqueTTL
      · intro hlt
        rw [route_deferred now (buildMessage task opt) opt hlt] at hinfo ⊢
        rw [← hinfo]
        refine ⟨rfl, rfl, ?_⟩
        intro c hcm
        simp only [List.mem_singleton] at hcm
        rw [hcm]
        exact scheduleCall_isImmediate now (buildMessage task opt) opt.processAt
          opt.uniqueTTL

theorem enqueue_routing_by_time_witness :
    ((⟨⟨"id", "a", [], "default", 25, 0, 1800, none, 0⟩, .pending, 0⟩ : TaskInfo).state
        = TaskState.pending ∧
      (⟨⟨"id", "a", [], "default", 25, 0, 1800, none, 0⟩, .pending, 0⟩ : TaskInfo).nextProcessAt
        = 0 ∧
      ∀ c ∈ (Client.Enqueue (fun _ => none) 0 "id" ⟨"a", [], []⟩ []).calls,
        c.isImmediate = true) :=
  (enqueue_routing_by_time (fun _ => none) 0 "id" ⟨"a", [], []⟩ []
      ⟨25, "default", "id", 0, 0, 0, 0, 0⟩
      ⟨⟨"id", "a", [], "default", 25, 0, 1800, none, 0⟩, .pending, 0⟩
      (by decide) (by decide)).1 (by decide)

/-- C8: on the deferred path with a positive uniqueness TTL, the TTL guard
passed to the store's schedule-unique operation equals
(resolved scheduled time + uniqueness TTL − now). -/
theorem scheduleUnique_ttl_guard (store : Store) (now : Time) (genId : String)
    (task : Task) (opts : List TaskOption) (opt : option) (m : TaskMessage)
    (t : Time) (g : Duration)
    (hcomp : composeOptions now genId (task.opts ++ opts) = (opt, none))
    (hmem : StoreCall.scheduleUnique m t g ∈
      (Client.Enqueue store now genId task opts).calls) :
    0 < opt.uniqueTTL ∧ t = opt.processAt ∧ g = opt.processAt + opt.uniqueTTL - now := by
  obtain ⟨opt', hb, hcomp', hc⟩ :=
    enqueue_calls_shape store now genId task opts _ hmem
  rw [hcomp] at hcomp'
  injection hcomp' with h1 h2
  subst h1
  rcases le_or_lt opt.processAt now with hle | hlt
  · rw [route_immediate now (buildMessage task opt) opt hle] at hc
    unfold Client.enqueueCall at hc
    by_cases httl : opt.uniqueTTL > 0
    · rw [if_pos httl] at hc; simp at hc
    · rw [if_neg httl] at hc; simp at hc
  · rw [route_deferred now (buildMessage task opt) opt hlt] at hc
    unfold Client.scheduleCall at hc
    by_cases httl : opt.uniqueTTL > 0
    · rw [if_pos httl] at hc
      injection hc with hm ht hg
      exact ⟨httl, ht, hg⟩
    · rw [if_neg httl] at hc; simp at hc

theorem scheduleUnique_ttl_guard_witness :
    ((0 : Int) < 600000000000 ∧
      (3600000000000 : Int) =
        (⟨25, "default", "id", 0, 0, 600000000000, 3600000000000, 0⟩ : option).processAt ∧
      (4200000000000 : Int) =
        (⟨25, "default", "id", 0, 0, 600000000000, 3600000000000, 0⟩ : option).processAt
          + (⟨25, "default", "id", 0, 0, 600000000000, 3600000000000, 0⟩ : option).uniqueTTL
          - 0) :=
  scheduleUnique_ttl_guard (fun _ => none) 0 "id" ⟨"a", [], []⟩
    [.processInOption Hour, .uniqueOption (10 * Minute)]
    ⟨25, "default", "id", 0, 0, 600000000000, 3600000000000, 0⟩
    ⟨"id", "a", [], "default", 25, 0, 1800,
      some ⟨"default", "a", []⟩, 0⟩
    3600000000000 4200000000000 (by decide) (by decide)

end Asynq

namespace Asynq

theorem calls_uniqueKey (store : Store) (now : Time) (genId : String)
    (task : Task) (opts : List TaskOption) (c : StoreCall)
    (hc : c ∈ (Client.Enqueue store now genId task opts).calls) :
    c.msg.uniqueKey = none ∨
    c.msg.uniqueKey = some (UniqueKey c.msg.queue task.typename task.payload) := by
  obtain ⟨opt, hb, hcomp, rfl⟩ := enqueue_calls_shape store now genId task opts c hc
  rw [route_msg, buildMessage_uniqueKey]
  by_cases h : opt.uniqueTTL > 0
  · right
    rw [if_pos h]
    rfl
  · left
    rw [if_neg h]

/-- C4: the derived uniqueness key is a function of (queue, task type,
payload) only: any two submissions agreeing on that triple derive equal keys
whatever their other options, task IDs, stores or submission times; two
submissions differing in payload derive different keys. -/
theorem uniqueKey_depends_only_on_triple :
    (∀ (store₁ store₂ : Store) (now₁ now₂ : Time) (genId₁ genId₂ : String)
        (task₁ task₂ : Task) (opts₁ opts₂ : List TaskOption) (c₁ c₂ : StoreCall)
        (k₁ k₂ : UniqueKeyV),
      c₁ ∈ (Client.Enqueue store₁ now₁ genId₁ task₁ opts₁).calls →
      c₂ ∈ (Client.Enqueue store₂ now₂ genId₂ task₂ opts₂).calls →
      task₁.typename = task₂.typename → task₁.payload = task₂.payload →
      c₁.msg.queue = c₂.msg.queue →
      c₁.msg.uniqueKey = some k₁ → c₂.msg.uniqueKey = some k₂ → k₁ = k₂) ∧
    (∀ (store₁ store₂ : Store) (now₁ now₂ : Time) (genId₁ genId₂ : String)
        (task₁ task₂ : Task) (opts₁ opts₂ : List TaskOption) (c₁ c₂ : StoreCall)
        (k₁ k₂ : UniqueKeyV),
      c₁ ∈ (Client.Enqueue store₁ now₁ genId₁ task₁ opts₁).calls →
      c₂ ∈ (Client.Enqueue store₂ now₂ genId₂ task₂ opts₂).calls →
      task₁.payload ≠ task₂.payload →
      c₁.msg.uniqueKey = some k₁ → c₂.msg.uniqueKey = some k₂ → k₁ ≠ k₂) := by
  constructor
  · intro store₁ store₂ now₁ now₂ genId₁ genId₂ task₁ task₂ opts₁ opts₂ c₁ c₂ k₁ k₂
      hc₁ hc₂ hty hpl hq hk₁ hk₂
    rcases calls_uniqueKey store₁ now₁ genId₁ task₁ opts₁ c₁ hc₁ with h₁ | h₁
    · rw [h₁] at hk₁; cases hk₁
    rcases calls_uniqueKey store₂ now₂ genId₂ task₂ opts₂ c₂ hc₂ with h₂ | h₂
    · rw [h₂] at hk₂; cases hk₂
    rw [h₁] at hk₁
    rw [h₂] at hk₂
    injection hk₁ with hk₁
    injection hk₂ with hk₂
    rw [← hk₁, ← hk₂, hty, hpl, hq]
  · intro store₁ store₂ now₁ now₂ genId₁ genId₂ task₁ task₂ opts₁ opts₂ c₁ c₂ k₁ k₂
      hc₁ hc₂ hpl hk₁ hk₂
    rcases calls_uniqueKey store₁ now₁ genId₁ task₁ opts₁ c₁ hc₁ with h₁ | h₁
    · rw [h₁] at hk₁; cases hk₁
    rcases calls_uniqueKey store₂ now₂ genId₂ task₂ opts₂ c₂ hc₂ with h₂ | h₂
    · rw [h₂] at hk₂; cases hk₂
    rw [h₁] at hk₁
    rw [h₂] at hk₂
    injection hk₁ with hk₁
    injection hk₂ with hk₂
    intro heq
    apply hpl
    have := congrArg UniqueKeyV.payload heq
    rw [← hk₁, ← hk₂] at this
    exact this

theorem uniqueKey_depends_only_on_triple_witness :
    ((⟨"default", "t", [1]⟩ : UniqueKeyV) = ⟨"default", "t", [1]⟩ ∧
      (⟨"default", "t", [1]⟩ : UniqueKeyV) ≠ ⟨"default", "t", [2]⟩) :=
  ⟨uniqueKey_depends_only_on_triple.1 (fun _ => none) (fun _ => none) 0 5 "a1" "b2"
      ⟨"t", [1], []⟩ ⟨"t", [1], []⟩ [.uniqueOption Minute, .retryOption 3]
      [.uniqueOption (2 * Minute), .timeoutOption Hour]
      (.enqueueUnique ⟨"a1", "t", [1], "default", 3, 0, 1800,
        some ⟨"default", "t", [1]⟩, 0⟩ Minute)
      (.enqueueUnique ⟨"b2", "t", [1], "default", 25, 0, 3600,
        some ⟨"default", "t", [1]⟩, 0⟩ (2 * Minute))
      ⟨"default", "t", [1]⟩ ⟨"default", "t", [1]⟩
      (by decide) (by decide) (by decide) (by decide) (by decide) (by decide)
      (by decide),
    uniqueKey_depends_only_on_triple.2 (fun _ => none) (fun _ => none) 0 0 "a1" "c3"
      ⟨"t", [1], []⟩ ⟨"t", [2], []⟩ [.uniqueOption Minute, .retryOption 3]
      [.uniqueOption Minute]
      (.enqueueUnique ⟨"a1", "t", [1], "default", 3, 0, 1800,
        some ⟨"default", "t", [1]⟩, 0⟩ Minute)
      (.enqueueUnique ⟨"c3", "t", [2], "default", 25, 0, 1800,
        some ⟨"default", "t", [2]⟩, 0⟩ Minute)
      ⟨"default", "t", [1]⟩ ⟨"default", "t", [2]⟩
      (by decide) (by decide) (by decide) (by decide) (by decide)⟩

end Asynq

namespace Asynq

/-- C6: composition applies the task's attached options first and the
call-supplied options after them, and on success each field of the resolved
configuration is the value of the last option of that kind in the combined
sequence, falling back to the base defaults retry = 25, the default queue
name, the generated task ID, zero timeout/deadline/TTL/retention and
scheduled time `now` when the kind is absent. -/
theorem composeOptions_last_wins (now : Time) (genId : String) (task : Task)
    (callOpts : List TaskOption) (res : option)
    (h : composeOptions now genId (task.opts ++ callOpts) = (res, none)) :
    res = { retry := resolveLast retryVal 25 (task.opts ++ callOpts)
            queue := resolveLast queueVal DefaultQueueName (task.opts ++ callOpts)
            taskID := resolveLast taskIDVal genId (task.opts ++ callOpts)
            timeout := resolveLast timeoutVal 0 (task.opts ++ callOpts)
            deadline := resolveLast deadlineVal 0 (task.opts ++ callOpts)
            uniqueTTL := resolveLast uniqueVal 0 (task.opts ++ callOpts)
            processAt := resolveLast (schedVal now) now (task.opts ++ callOpts)
            retention := resolveLast retentionVal 0 (task.opts ++ callOpts) } :=
  composeOptions_ok now genId (task.opts ++ callOpts) res h

theorem composeOptions_last_wins_witness :
    (⟨7, "q", "g", 0, 0, 0, 15, 0⟩ : option) =
      { retry := resolveLast retryVal 25
          ([.retryOption 1] ++ [.retryOption 7, .queueOption "q", .processInOption 5])
        queue := resolveLast queueVal DefaultQueueName
          ([.retryOption 1] ++ [.retryOption 7, .queueOption "q", .processInOption 5])
        taskID := resolveLast taskIDVal "g"
          ([.retryOption 1] ++ [.retryOption 7, .queueOption "q", .processInOption 5])
        timeout := resolveLast timeoutVal 0
          ([.retryOption 1] ++ [.retryOption 7, .queueOption "q", .processInOption 5])
        deadline := resolveLast deadlineVal 0
          ([.retryOption 1] ++ [.retryOption 7, .queueOption "q", .processInOption 5])
        uniqueTTL := resolveLast uniqueVal 0
          ([.retryOption 1] ++ [.retryOption 7, .queueOption "q", .processInOption 5])
        processAt := resolveLast (schedVal 10) 10
          ([.retryOption 1] ++ [.retryOption 7, .queueOption "q", .processInOption 5])
        retention := resolveLast retentionVal 0
          ([.retryOption 1] ++ [.retryOption 7, .queueOption "q", .processInOption 5]) } :=
  composeOptions_last_wins 10 "g" ⟨"x", [], [.retryOption 1]⟩
    [.retryOption 7, .queueOption "q", .processInOption 5]
    ⟨7, "q", "g", 0, 0, 0, 15, 0⟩ (by decide)

/-- C7: a queue option failing queue-name validation or a blank task-ID
option makes the composer return the zero configuration together with the
first such validation failure in the sequence, and `Enqueue` then returns
that failure with no backing-store interaction. -/
theorem composeOptions_first_validation_failure :
    (∀ (now : Time) (genId : String) (opts : List TaskOption) (e : Err),
        firstFailure opts = some e →
        composeOptions now genId opts = (option.zero, some e)) ∧
    (∀ (store : Store) (now : Time) (genId : String) (task : Task)
        (opts : List TaskOption) (e : Err),
        isBlank task.typename = false →
        firstFailure (task.opts ++ opts) = some e →
        Client.Enqueue store now genId task opts = ⟨none, some e, []⟩) := by
  constructor
  · intro now genId opts e h
    exact composeOptionsLoop_firstFailure now opts e h _
  · intro store now genId task opts e hb hf
    exact enqueue_fail_eq store now genId task opts option.zero e hb
      (composeOptionsLoop_firstFailure now (task.opts ++ opts) e hf _)

theorem composeOptions_first_validation_failure_witness :
    (composeOptions 0 "g" [.queueOption " ", .taskIDOption "x"] =
        (option.zero, some (.validation "queue name must not be empty")) ∧
      Client.Enqueue (fun _ => none) 0 "g" ⟨"t", [], []⟩ [.taskIDOption "  "] =
        ⟨none, some (.validation "task ID cannot be empty"), []⟩) :=
  ⟨composeOptions_first_validation_failure.1 0 "g"
      [.queueOption " ", .taskIDOption "x"]
      (.validation "queue name must not be empty") (by decide),
    composeOptions_first_validation_failure.2 (fun _ => none) 0 "g" ⟨"t", [], []⟩
      [.taskIDOption "  "] (.validation "task ID cannot be empty")
      (by decide) (by decide)⟩

/-- C9: when the backing store answers the issued call with the internal
duplicate-task sentinel, `Enqueue` returns the public duplicate-submission
error; with the internal identifier-conflict sentinel, the distinct public
identifier-conflict error; any other store error is returned unchanged. -/
theorem enqueue_error_mapping (store : Store) (now : Time) (genId : String)
    (task : Task) (opts : List TaskOption) (c : StoreCall)
    (hc : c ∈ (Client.Enqueue store now genId task opts).calls) :
    (store c = some .errDuplicateTaskInternal →
        (Client.Enqueue store now genId task opts).err = some .ErrDuplicateTask) ∧
    (store c = some .errTaskIdConflictInternal →
        (Client.Enqueue store now genId task opts).err = some .ErrTaskIDConflict) ∧
    (∀ e, store c = some e → e ≠ .errDuplicateTaskInternal →
        e ≠ .errTaskIdConflictInternal →
        (Client.Enqueue store now genId task opts).err = some e) ∧
    Err.ErrDuplicateTask ≠ Err.ErrTaskIDConflict := by
  obtain ⟨opt, hb, hcomp, hcall⟩ := enqueue_calls_shape store now genId task opts c hc
  rw [enqueue_ok_eq store now genId task opts opt hb hcomp, submitResult_err, ← hcall]
  refine ⟨?_, ?_, ?_, by decide⟩
  · intro h
    rw [h]
    decide
  · intro h
    rw [h]
    decide
  · intro e h hne1 hne2
    rw [h]
    simp only [Option.map_some']
    unfold mapError
    rw [if_neg hne1, if_neg hne2]

theorem enqueue_error_mapping_witness :
    (Client.Enqueue (fun _ => some (.other "boom")) 0 "id" ⟨"a", [], []⟩ []).err
      = some (.other "boom") :=
  (enqueue_error_mapping (fun _ => some (.other "boom")) 0 "id" ⟨"a", [], []⟩ []
      (.enqueue ⟨"id", "a", [], "default", 25, 0, 1800, none, 0⟩)
      (by decide)).2.2.1 (.other "boom") (by decide) (by decide) (by decide)

end Asynq

namespace Asynq

theorem loop_append_timeout_zero (now : Time) (l : List TaskOption) (acc : option)
    (h : ∀ o ∈ l, timeoutVal o = none) (hacc : acc.timeout = 0) :
    composeOptionsLoop now (l ++ [.timeoutOption 0]) acc =
      composeOptionsLoop now l acc := by
  rw [composeOptionsLoop_append]
  cases hcomp : composeOptionsLoop now l acc with
  | mk r oerr =>
    cases oerr with
    | some e => rfl
    | none =>
      have hr := composeOptionsLoop_ok now l acc r hcomp
      have ht : r.timeout = 0 := by
        rw [hr]
        rw [resolveLast_eq_default timeoutVal acc.timeout l h]
        exact hacc
      simp only [composeOptionsLoop, Prod.mk.injEq, and_true]
      cases r
      simp_all

theorem loop_append_deadline_zero (now : Time) (l : List TaskOption) (acc : option)
    (h : ∀ o ∈ l, deadlineVal o = none) (hacc : acc.deadline = 0) :
    composeOptionsLoop now (l ++ [.deadlineOption 0]) acc =
      composeOptionsLoop now l acc := by
  rw [composeOptionsLoop_append]
  cases hcomp : composeOptionsLoop now l acc with
  | mk r oerr =>
    cases oerr with
    | some e => rfl
    | none =>
      have hr := composeOptionsLoop_ok now l acc r hcomp
      have ht : r.deadline = 0 := by
        rw [hr]
        rw [resolveLast_eq_default deadlineVal acc.deadline l h]
        exact hacc
      simp only [composeOptionsLoop, Prod.mk.injEq, and_true]
      cases r
      simp_all

/-- C10 counterexample: a caller-supplied `Timeout(0)` is distinguishable
from the option being absent when a nonzero timeout is among the task's
attached default options: with it the record falls back to the 30-minute
default timeout (1800 s), without it the attached 300 s timeout survives. -/
theorem timeout_zero_distinguishable_cex :
    Client.Enqueue (fun _ => none) 0 "id"
        ⟨"t", [], [Timeout (300 * 1000000000)]⟩ [Timeout 0] ≠
      Client.Enqueue (fun _ => none) 0 "id"
        ⟨"t", [], [Timeout (300 * 1000000000)]⟩ [] := by
  decide

/-- C10 amended: a caller-supplied timeout option of exactly zero duration,
and a caller-supplied deadline option equal to the zero time value, are each
indistinguishable from the option being absent provided no other option of
the same kind appears in the submission; in particular `Timeout(0)` with no
deadline yields the default 30-minute timeout rather than an unlimited one
(the zero resolved timeout is treated as unset by the record builder). -/
theorem zero_timeout_deadline_like_absent :
    (∀ (store : Store) (now : Time) (genId : String) (task : Task)
        (opts : List TaskOption),
      (∀ o ∈ task.opts ++ opts, o.typeOf ≠ .TimeoutOpt) →
      Client.Enqueue store now genId task (opts ++ [Timeout 0]) =
        Client.Enqueue store now genId task opts) ∧
    (∀ (store : Store) (now : Time) (genId : String) (task : Task)
        (opts : List TaskOption),
      (∀ o ∈ task.opts ++ opts, o.typeOf ≠ .DeadlineOpt) →
      Client.Enqueue store now genId task (opts ++ [Deadline 0]) =
        Client.Enqueue store now genId task opts) ∧
    (∀ (store : Store) (now : Time) (genId : String) (task : Task)
        (opts : List TaskOption),
      (∀ o ∈ task.opts ++ opts, o.typeOf ≠ .TimeoutOpt ∧ o.typeOf ≠ .DeadlineOpt) →
      ∀ c ∈ (Client.Enqueue store now genId task (opts ++ [Timeout 0])).calls,
        c.msg.timeout = Duration.seconds defaultTimeout) := by
  have htpart : ∀ (store : Store) (now : Time) (genId : String) (task : Task)
      (opts : List TaskOption),
      (∀ o ∈ task.opts ++ opts, o.typeOf ≠ .TimeoutOpt) →
      Client.Enqueue store now genId task (opts ++ [Timeout 0]) =
        Client.Enqueue store now genId task opts := by
    intro store now genId task opts h
    have hcompeq : composeOptions now genId (task.opts ++ (opts ++ [Timeout 0])) =
        composeOptions now genId (task.opts ++ opts) := by
      rw [← List.append_assoc]
      unfold composeOptions
      exact loop_append_timeout_zero now (task.opts ++ opts) _
        (fun o ho => timeoutVal_eq_none o (h o ho)) rfl
    unfold Client.Enqueue
    rw [hcompeq]
  refine ⟨htpart, ?_, ?_⟩
  · intro store now genId task opts h
    have hcompeq : composeOptions now genId (task.opts ++ (opts ++ [Deadline 0])) =
        composeOptions now genId (task.opts ++ opts) := by
      rw [← List.append_assoc]
      unfold composeOptions
      exact loop_append_deadline_zero now (task.opts ++ opts) _
        (fun o ho => deadlineVal_eq_none o (h o ho)) rfl
    unfold Client.Enqueue
    rw [hcompeq]
  · intro store now genId task opts h c hc
    rw [htpart store now genId task opts (fun o ho => (h o ho).1)] at hc
    obtain ⟨opt, hb, hcomp, rfl⟩ := enqueue_calls_shape store now genId task opts c hc
    have hopt := composeOptions_ok now genId (task.opts ++ opts) opt hcomp
    have hto : opt.timeout = 0 := by
      rw [hopt]
      exact resolveLast_eq_default _ _ _ fun o ho => timeoutVal_eq_none o (h o ho).1
    have hdl : opt.deadline = 0 := by
      rw [hopt]
      exact resolveLast_eq_default _ _ _ fun o ho => deadlineVal_eq_none o (h o ho).2
    rw [route_msg, (buildMessage_defaults task opt hto hdl).1]
    decide

theorem zero_timeout_deadline_like_absent_witness :
    (Client.Enqueue (fun _ => none) 0 "id" ⟨"t", [], []⟩ ([] ++ [Timeout 0]) =
        Client.Enqueue (fun _ => none) 0 "id" ⟨"t", [], []⟩ [] ∧
      Client.Enqueue (fun _ => none) 0 "id" ⟨"t", [], []⟩ ([] ++ [Deadline 0]) =
        Client.Enqueue (fun _ => none) 0 "id" ⟨"t", [], []⟩ []) :=
  ⟨zero_timeout_deadline_like_absent.1 (fun _ => none) 0 "id" ⟨"t", [], []⟩ []
      (by decide),
    zero_timeout_deadline_like_absent.2.1 (fun _ => none) 0 "id" ⟨"t", [], []⟩ []
      (by decide)⟩

end Asynq
